import Mathlib

/-!
Verification of the manifest merge-and-download engine of the
custom-comfyui repository (`download_models.py` and
`download_models_portable.py`).

The Python code is shallowly embedded: dictionaries of strings become
structures with `Option String` fields (a missing key is `none`),
Python string truthiness (`if not url:`) becomes `strTruthy`, the
`ModelManifest` object's mutable state becomes an explicit state record
threaded through folds, and the network / filesystem / subprocess world
is passed in as explicit parameters (the per-source load result, the
transport outcome, the pre-existing destination content).
-/

set_option maxRecDepth 8192

namespace ComfyDL

/-- Python truthiness of an optional string: `None` and `""` are falsy,
every other string is truthy.  Models `if not url:` checks. -/
def strTruthy : Option String → Bool
  | none => false
  | some s => !s.isEmpty

/-- Python `str.lower()`, modelled as per-character ASCII lowercasing. -/
def pyLower (s : String) : String := String.mk (s.data.map Char.toLower)

/-! ### SHA-256 (model of `hashlib.sha256`)

`verify_hash` in both source files feeds the file to a SHA-256
accumulator in 4096-byte chunks and compares the lowercase hex digest
with the expected string.  Bytes are `Nat`s below 256; 32-bit words are
`Nat`s reduced mod `2 ^ 32`. -/

/-- Split a list into chunks of `n` elements (last chunk possibly
shorter), as produced by `iter(lambda: f.read(n), b"")`.
`cur` is the reversed current chunk, `k` the remaining capacity. -/
def chunkGoAux (n : Nat) : List α → List α → Nat → List (List α)
  | [], cur, _ => if cur.isEmpty then [] else [cur.reverse]
  | x :: xs, cur, Nat.succ k => chunkGoAux n xs (x :: cur) k
  | x :: xs, cur, 0 => cur.reverse :: chunkGoAux n xs [x] (n - 1)

/-- The successive chunks returned by reading a file `n` bytes at a time. -/
def readChunks (n : Nat) (l : List α) : List (List α) := chunkGoAux n l [] n

def M32 : Nat := 4294967296

def add32 (a b : Nat) : Nat := (a + b) % M32

def rotr32 (n x : Nat) : Nat := ((x >>> n) ||| (x <<< (32 - n))) % M32

def shaCh (x y z : Nat) : Nat := (x &&& y) ^^^ ((x ^^^ 4294967295) &&& z)

def shaMaj (x y z : Nat) : Nat := (x &&& y) ^^^ (x &&& z) ^^^ (y &&& z)

def bigSigma0 (x : Nat) : Nat := rotr32 2 x ^^^ rotr32 13 x ^^^ rotr32 22 x

def bigSigma1 (x : Nat) : Nat := rotr32 6 x ^^^ rotr32 11 x ^^^ rotr32 25 x

def smallSigma0 (x : Nat) : Nat := rotr32 7 x ^^^ rotr32 18 x ^^^ (x >>> 3)

def smallSigma1 (x : Nat) : Nat := rotr32 17 x ^^^ rotr32 19 x ^^^ (x >>> 10)

def shaK : List Nat :=
  [1116352408, 1899447441, 3049323471, 3921009573, 961987163, 1508970993,
   2453635748, 2870763221, 3624381080, 310598401, 607225278, 1426881987,
   1925078388, 2162078206, 2614888103, 3248222580, 3835390401, 4022224774,
   264347078, 604807628, 770255983, 1249150122, 1555081692, 1996064986,
   2554220882, 2821834349, 2952996808, 3210313671, 3336571891, 3584528711,
   113926993, 338241895, 666307205, 773529912, 1294757372, 1396182291,
   1695183700, 1986661051, 2177026350, 2456956037, 2730485921, 2820302411,
   3259730800, 3345764771, 3516065817, 3600352804, 4094571909, 275423344,
   430227734, 506948616, 659060556, 883997877, 958139571, 1322822218,
   1537002063, 1747873779, 1955562222, 2024104815, 2227730452, 2361852424,
   2428436474, 2756734187, 3204031479, 3329325298]

structure Sha256State where
  a : Nat
  b : Nat
  c : Nat
  d : Nat
  e : Nat
  f : Nat
  g : Nat
  h : Nat

def shaInit : Sha256State :=
  ⟨1779033703, 3144134277, 1013904242, 2773480762,
   1359893119, 2600822924, 528734635, 1541459225⟩

/-- Extend the 16-word message schedule by `k` further words.
`revW` holds the schedule so far, most recent word first. -/
def extendSchedule : Nat → List Nat → List Nat
  | 0, revW => revW
  | Nat.succ k, revW =>
      let w := add32 (add32 (smallSigma1 (revW.getD 1 0)) (revW.getD 6 0))
                     (add32 (smallSigma0 (revW.getD 14 0)) (revW.getD 15 0))
      extendSchedule k (w :: revW)

/-- One SHA-256 compression round for a given `(K, W)` pair. -/
def shaRound (st : Sha256State) (kw : Nat × Nat) : Sha256State :=
  let t1 := add32 st.h (add32 (bigSigma1 st.e)
              (add32 (shaCh st.e st.f st.g) (add32 kw.1 kw.2)))
  let t2 := add32 (bigSigma0 st.a) (shaMaj st.a st.b st.c)
  ⟨add32 t1 t2, st.a, st.b, st.c, add32 st.d t1, st.e, st.f, st.g⟩

/-- Process one 512-bit block (16 big-endian 32-bit words). -/
def processBlock (st : Sha256State) (block : List Nat) : Sha256State :=
  let W := (extendSchedule 48 block.reverse).reverse
  let r := (shaK.zip W).foldl shaRound st
  ⟨add32 st.a r.a, add32 st.b r.b, add32 st.c r.c, add32 st.d r.d,
   add32 st.e r.e, add32 st.f r.f, add32 st.g r.g, add32 st.h r.h⟩

/-- The `k` bytes of `n` in big-endian order. -/
def beBytes : Nat → Nat → List Nat
  | 0, _ => []
  | Nat.succ k, n => beBytes k (n / 256) ++ [n % 256]

/-- SHA-256 padding: append `0x80`, zeros up to 56 mod 64, then the
bit length as 8 big-endian bytes. -/
def padMessage (msg : List Nat) : List Nat :=
  let L := msg.length
  msg ++ 128 :: List.replicate ((119 - L % 64) % 64) 0 ++ beBytes 8 (L * 8)

/-- Group 4 big-endian bytes into one 32-bit word. -/
def bytesToWords : List Nat → List Nat
  | a :: b :: c :: d :: rest => (((a * 256 + b) * 256 + c) * 256 + d) :: bytesToWords rest
  | _ => []

/-- SHA-256 digest of a byte sequence, as 32 bytes. -/
def sha256 (msg : List Nat) : List Nat :=
  let blocks := readChunks 16 (bytesToWords (padMessage msg))
  let r := blocks.foldl processBlock shaInit
  [r.a, r.b, r.c, r.d, r.e, r.f, r.g, r.h].foldr (fun w acc => beBytes 4 w ++ acc) []

def hexDigit (n : Nat) : Char :=
  if n < 10 then Char.ofNat (48 + n) else Char.ofNat (87 + n)

/-- Lowercase hexadecimal rendering of a byte sequence
(`hashlib`'s `hexdigest`). -/
def toHexString (bytes : List Nat) : String :=
  String.mk (bytes.foldr (fun b acc => hexDigit (b / 16) :: hexDigit (b % 16) :: acc) [])

/-- The lowercase hex SHA-256 digest of a byte sequence. -/
def sha256hex (msg : List Nat) : String := toHexString (sha256 msg)

/-- Embedding of `verify_hash(file_path, expected_hash)` from both source files: the
file is streamed into a SHA-256 accumulator in 4096-byte chunks
(`hashlib`'s accumulator state is modelled by the bytes fed so far) and
the lowercase hex digest is compared to `expected_hash` with exact
string equality. -/
def verify_hash (fileBytes : List Nat) (expected_hash : String) : Bool :=
  let fed := (readChunks 4096 fileBytes).foldl (fun s chunk => s ++ chunk) ([] : List Nat)
  sha256hex fed == expected_hash

/-! ### Data model

A manifest entry is a JSON object of optional string fields; a missing
key is `none` (`model.get('url')` returning `None`). -/

structure ModelEntry where
  name : Option String
  url : Option String
  type : Option String
  path : Option String
  filename : Option String
  sha256 : Option String
deriving DecidableEq, Repr

structure NodeEntry where
  name : Option String
  repo : Option String
  path : Option String
deriving DecidableEq, Repr

/-- One parsed manifest document: `{"models": [...], "custom_nodes": [...]}`.
The portable variant reads only `models`. -/
structure Manifest where
  models : List ModelEntry
  custom_nodes : List NodeEntry
deriving DecidableEq, Repr

/-! ### Manifest merge engine (`ModelManifest` in both source files)

The object's mutable fields become a state record; Python dicts become
association lists (`key in d` is a successful lookup, `d[k] = v` an
append, possible because the code only inserts unseen keys). -/

structure ModelManifest where
  models : List ModelEntry
  custom_nodes : List NodeEntry
  seen_models : List (String × String)
  seen_nodes : List (String × String)
deriving DecidableEq, Repr

/-- Embedding of `ModelManifest.__init__`: all fields start empty. -/
def ModelManifest.empty : ModelManifest := ⟨[], [], [], []⟩

/-- Python `key in seen` for the duplicate-tracking dicts. -/
def seenContains (seen : List (String × String)) (k : String) : Bool :=
  (seen.lookup k).isSome

/-- The body of the per-model loop of `add_manifest`: skip an entry with
falsy `url`, count a duplicate of a seen lowercased key, otherwise
append the entry verbatim and register the key with the source.
The accumulator is `(state, models_added, models_skipped)`. -/
def addModelStep (source : String) (acc : ModelManifest × Nat × Nat)
    (model : ModelEntry) : ModelManifest × Nat × Nat :=
  match model.url with
  | none => acc
  | some u =>
    if u.isEmpty then acc
    else
      let key := pyLower u
      let st := acc.1
      if seenContains st.seen_models key then (st, acc.2.1, acc.2.2 + 1)
      else ({ st with
                models := st.models ++ [model],
                seen_models := st.seen_models ++ [(key, source)] },
            acc.2.1 + 1, acc.2.2)

/-- The body of the per-node loop of `add_manifest` (full variant),
keyed on `repo`. -/
def addNodeStep (source : String) (acc : ModelManifest × Nat × Nat)
    (node : NodeEntry) : ModelManifest × Nat × Nat :=
  match node.repo with
  | none => acc
  | some r =>
    if r.isEmpty then acc
    else
      let key := pyLower r
      let st := acc.1
      if seenContains st.seen_nodes key then (st, acc.2.1, acc.2.2 + 1)
      else ({ st with
                custom_nodes := st.custom_nodes ++ [node],
                seen_nodes := st.seen_nodes ++ [(key, source)] },
            acc.2.1 + 1, acc.2.2)

/-- Embedding of `ModelManifest.add_manifest(manifest, source)`: fold the model loop,
then the node loop, returning the new state and
`(models_added, models_skipped, nodes_added, nodes_skipped)`. -/
def add_manifest (st : ModelManifest) (manifest : Manifest) (source : String) :
    ModelManifest × Nat × Nat × Nat × Nat :=
  let r1 := manifest.models.foldl (addModelStep source) (st, 0, 0)
  let r2 := manifest.custom_nodes.foldl (addNodeStep source) (r1.1, 0, 0)
  (r2.1, r1.2.1, r1.2.2, r2.2.1, r2.2.2)

/-- Embedding of `ModelManifest.load_manifests(sources)`: each source is paired with
its `load_manifest` result (`none` models the `None` returned on any
load error).  A failed source is only reported; a loaded manifest is
merged and the printed totals accumulate.  Returns the final state and
`(total_models, total_models_skipped, total_nodes, total_nodes_skipped)`. -/
def loadStep (acc : ModelManifest × Nat × Nat × Nat × Nat)
    (src : String × Option Manifest) : ModelManifest × Nat × Nat × Nat × Nat :=
  match src.2 with
  | none => acc
  | some manifest =>
      let r := add_manifest acc.1 manifest src.1
      (r.1, acc.2.1 + r.2.1, acc.2.2.1 + r.2.2.1,
       acc.2.2.2.1 + r.2.2.2.1, acc.2.2.2.2 + r.2.2.2.2)

def load_manifests (st : ModelManifest)
    (sources : List (String × Option Manifest)) :
    ModelManifest × Nat × Nat × Nat × Nat :=
  sources.foldl loadStep (st, 0, 0, 0, 0)

/-- Embedding of `ModelManifest.get_combined_manifest()`. -/
def get_combined_manifest (st : ModelManifest) : Manifest :=
  ⟨st.models, st.custom_nodes⟩

/-! ### Plan runner (`download_models` / `install_custom_nodes`)

The call `download_file(url, dest_path, expected_hash)` (resp.
`clone_repo(repo, dest_path)`) performed for an entry with a truthy
source is abstracted by an oracle on the entry, since its outcome
depends on the external world; everything the runner itself computes is
embedded. -/

/-- Does `model.get('type') in types_filter` hold?  (`None` is never a
member of a list of strings.) -/
def typeMem (m : ModelEntry) (tf : List String) : Bool :=
  match m.type with
  | none => false
  | some t => tf.contains t

/-- The filtering step at the top of `download_models`:
`if types_filter: models = [m for m in models if m.get('type') in types_filter]`
(`None` and `[]` are falsy). -/
def filteredModels (models : List ModelEntry) (tf : Option (List String)) :
    List ModelEntry :=
  match tf with
  | none => models
  | some l => if l.isEmpty then models else models.filter (fun m => typeMem m l)

/-- The body of the per-model loop of `download_models`: a falsy `url`
counts one failure; in dry-run mode a truthy `url` counts one success;
otherwise the `download_file` outcome (`fetch`) decides.  The
accumulator is `(success_count, fail_count)`. -/
def modelRunStep (dry_run : Bool) (fetch : ModelEntry → Bool)
    (acc : Nat × Nat) (m : ModelEntry) : Nat × Nat :=
  match m.url with
  | none => (acc.1, acc.2 + 1)
  | some u =>
    if u.isEmpty then (acc.1, acc.2 + 1)
    else if dry_run then (acc.1 + 1, acc.2)
    else if fetch m then (acc.1 + 1, acc.2) else (acc.1, acc.2 + 1)

/-- Embedding of `download_models(manifest, types_filter, dry_run)` returning
`(success_count, fail_count)`. -/
def download_models (manifest : Manifest) (types_filter : Option (List String))
    (dry_run : Bool) (fetch : ModelEntry → Bool) : Nat × Nat :=
  (filteredModels manifest.models types_filter).foldl (modelRunStep dry_run fetch) (0, 0)

/-- The body of the per-node loop of `install_custom_nodes`. -/
def nodeRunStep (dry_run : Bool) (clone : NodeEntry → Bool)
    (acc : Nat × Nat) (n : NodeEntry) : Nat × Nat :=
  match n.repo with
  | none => (acc.1, acc.2 + 1)
  | some r =>
    if r.isEmpty then (acc.1, acc.2 + 1)
    else if dry_run then (acc.1 + 1, acc.2)
    else if clone n then (acc.1 + 1, acc.2) else (acc.1, acc.2 + 1)

/-- Embedding of `install_custom_nodes(manifest, dry_run)` (full variant; no type
filter) returning `(success_count, fail_count)`. -/
def install_custom_nodes (manifest : Manifest) (dry_run : Bool)
    (clone : NodeEntry → Bool) : Nat × Nat :=
  manifest.custom_nodes.foldl (nodeRunStep dry_run clone) (0, 0)

/-! ### Transfer executor (`download_file`, portable variant)

`download_file(url, dest_path, expected_hash)` of
`download_models_portable.py` as a function of the relevant world
state: the pre-existing content of `dest_path` (`none` when the file
does not exist), whether a download method (curl or `requests`) is
available, and the outcome of the selected transport when it is run.
The result records the code path taken (distinguished in the source by
its prints), the final content of `dest_path`, and whether a transport
was invoked. -/

/-- Outcome of one `download_file` call, matching the source's exit
points: `skippedPresent` is the `return True` under "(hash verified,
skipped)" / "(already exists, skipped)", `succeeded` the final
`return True`, `failed` any `return False`. -/
inductive Outcome where
  | succeeded
  | skippedPresent
  | failed
deriving DecidableEq, Repr

/-- What the selected transport does when invoked: `ok bytes` writes
`bytes` to the destination and reports success; `err leftover` reports
failure, possibly leaving behind a half-written file
(`leftover = some bytes`) or nothing (`none`). -/
inductive TransportResult where
  | ok (bytes : List Nat)
  | err (leftover : Option (List Nat))
deriving DecidableEq, Repr

structure DLResult where
  outcome : Outcome
  dest : Option (List Nat)
  transportUsed : Bool
deriving DecidableEq, Repr

/-- The part of `download_file` after the already-exists check: pick a
transport (curl, else `requests`, else fail without fetching), run it,
delete the destination on transport failure, then verify a truthy
expected hash and delete the file on mismatch.  When this point is
reached the destination does not exist (it never existed or was just
unlinked). -/
def fetchPhase (expected_hash : Option String) (hasMethod : Bool)
    (transport : TransportResult) : DLResult :=
  if hasMethod then
    match transport with
    | .err leftover =>
        -- `if not success: if dest_path.exists(): dest_path.unlink(); return False`
        match leftover with
        | _ => ⟨.failed, none, true⟩
    | .ok bytes =>
        if strTruthy expected_hash then
          if verify_hash bytes (expected_hash.getD "") then ⟨.succeeded, some bytes, true⟩
          else ⟨.failed, none, true⟩
        else ⟨.succeeded, some bytes, true⟩
  else ⟨.failed, none, false⟩

/-- Embedding of `download_file(url, dest_path, expected_hash)` (portable variant).
`dest0` is the content of `dest_path` before the call. -/
def download_file (dest0 : Option (List Nat)) (expected_hash : Option String)
    (hasMethod : Bool) (transport : TransportResult) : DLResult :=
  match dest0 with
  | some content =>
    if strTruthy expected_hash then
      if verify_hash content (expected_hash.getD "") then
        ⟨.skippedPresent, some content, false⟩
      else
        -- hash mismatch: `dest_path.unlink()` and fall through to the fetch
        fetchPhase expected_hash hasMethod transport
    else ⟨.skippedPresent, some content, false⟩
  | none => fetchPhase expected_hash hasMethod transport

/-! ### `main` (full variant)

The pipeline after argument parsing: load and combine the manifests,
run the model download phase unless `--nodes-only`, the node install
phase unless `--models-only`, and exit 0 exactly when the total failure
count is zero.  `argparse`'s `parser.error` on the conflicting-flags
combination exits with status 2 before any work; `--list` returns from
`main` (process exit status 0) after loading. -/

/-- The `(total_success, total_fail)` pair accumulated by `main`. -/
def mainTotals (sources : List (String × Option Manifest))
    (types : Option (List String)) (models_only nodes_only dry_run : Bool)
    (fetch : ModelEntry → Bool) (clone : NodeEntry → Bool) : Nat × Nat :=
  let st := (load_manifests ModelManifest.empty sources).1
  let combined := get_combined_manifest st
  let p1 := if nodes_only then (0, 0) else download_models combined types dry_run fetch
  let p2 := if models_only then (0, 0) else install_custom_nodes combined dry_run clone
  (p1.1 + p2.1, p1.2 + p2.2)

/-- The process exit status of `main` (full variant). -/
def mainExitCode (sources : List (String × Option Manifest))
    (types : Option (List String))
    (models_only nodes_only list_mode dry_run : Bool)
    (fetch : ModelEntry → Bool) (clone : NodeEntry → Bool) : Nat :=
  if models_only && nodes_only then 2
  else if list_mode then 0
  else if (mainTotals sources types models_only nodes_only dry_run fetch clone).2 = 0
  then 0 else 1

/-! ### Spec-side comparison definition for the merge -/

/-- First-seen-wins deduplication as the spec words it: walk the
arriving model entries in order, skip an entry with no usable `url` or
whose lowercased `url` was already registered, otherwise keep the
record verbatim and register its key. -/
def firstSeenDedupGo (seenKeys : List String) : List ModelEntry → List ModelEntry
  | [] => []
  | m :: rest =>
    match m.url with
    | none => firstSeenDedupGo seenKeys rest
    | some u =>
      if u.isEmpty then firstSeenDedupGo seenKeys rest
      else if seenKeys.contains (pyLower u) then firstSeenDedupGo seenKeys rest
      else m :: firstSeenDedupGo (seenKeys ++ [pyLower u]) rest

def firstSeenDedup (entries : List ModelEntry) : List ModelEntry :=
  firstSeenDedupGo [] entries

/-- All model entries arriving across an ordered list of sources, in
arrival order; a source that failed to load contributes none. -/
def allModels (sources : List (String × Option Manifest)) : List ModelEntry :=
  (sources.map (fun s => match s.2 with
    | some mf => mf.models
    | none => [])).flatten

/-! ### Helper lemmas -/

lemma chunkGoAux_flatten (n : Nat) (l : List α) :
    ∀ (cur : List α) (k : Nat), (chunkGoAux n l cur k).flatten = cur.reverse ++ l := by
  induction l with
  | nil =>
      intro cur k
      cases cur <;> simp [chunkGoAux]
  | cons x xs ih =>
      intro cur k
      cases k with
      | zero => simp [chunkGoAux, ih]
      | succ k => simp [chunkGoAux, ih]

lemma readChunks_flatten (n : Nat) (l : List α) : (readChunks n l).flatten = l := by
  simp [readChunks, chunkGoAux_flatten]

lemma foldl_append_eq_flatten (chunks : List (List α)) :
    ∀ s : List α, chunks.foldl (fun s chunk => s ++ chunk) s = s ++ chunks.flatten := by
  induction chunks with
  | nil => simp
  | cons c cs ih => intro s; simp [ih]

/-- The bytes fed to the SHA-256 accumulator by `verify_hash` are
exactly the file's bytes. -/
lemma verify_hash_fed (fileBytes : List Nat) (expected : String) :
    verify_hash fileBytes expected = (sha256hex fileBytes == expected) := by
  simp [verify_hash, foldl_append_eq_flatten, readChunks_flatten]

lemma getD_set_self (l : List Char) (i : Nat) (c : Char) (h : i < l.length) :
    (l.set i c).getD i 'x' = c := by
  induction l generalizing i with
  | nil => simp at h
  | cons a t ih =>
      cases i with
      | zero => simp
      | succ j => simpa using ih j (by simpa using h)

/-- Python `key in d` on a dict modelled as an association list agrees
with membership of the key list. -/
lemma lookup_isSome_eq_contains (l : List (String × String)) (k : String) :
    (l.lookup k).isSome = (l.map Prod.fst).contains k := by
  induction l with
  | nil => simp [List.lookup]
  | cons p t ih =>
      cases hk : (k == p.1) <;> simp [List.lookup, hk, ih]

/-- A duplicate-counting step on an entry with falsy `url` does nothing. -/
lemma addModelStep_falsy (source : String) (acc : ModelManifest × Nat × Nat)
    (m : ModelEntry) (h : strTruthy m.url = false) :
    addModelStep source acc m = acc := by
  cases hm : m.url with
  | none => simp [addModelStep, hm]
  | some u =>
      simp [strTruthy, hm] at h
      simp [addModelStep, hm, h]

lemma addNodeStep_falsy (source : String) (acc : ModelManifest × Nat × Nat)
    (n : NodeEntry) (h : strTruthy n.repo = false) :
    addNodeStep source acc n = acc := by
  cases hn : n.repo with
  | none => simp [addNodeStep, hn]
  | some r =>
      simp [strTruthy, hn] at h
      simp [addNodeStep, hn, h]

/-- The lowercased uniqueness key of a kept model entry. -/
def entryKeyStr (m : ModelEntry) : String := pyLower (m.url.getD "")

/-- One node step never touches the model plan or the model seen-map. -/
lemma addNodeStep_preserves (source : String) (acc : ModelManifest × Nat × Nat)
    (n : NodeEntry) :
    ((addNodeStep source acc n).1).models = acc.1.models ∧
    ((addNodeStep source acc n).1).seen_models = acc.1.seen_models := by
  cases hn : n.repo with
  | none => simp [addNodeStep, hn]
  | some r =>
      by_cases he : r.isEmpty
      · simp [addNodeStep, hn, he]
      · cases hs : seenContains acc.1.seen_nodes (pyLower r) <;>
          simp [addNodeStep, hn, he, hs]

/-- The node loop of `add_manifest` never touches the model plan or the
model seen-map. -/
lemma foldl_addNodeStep_models (source : String) (nodes : List NodeEntry) :
    ∀ (acc : ModelManifest × Nat × Nat),
      ((nodes.foldl (addNodeStep source) acc).1).models = acc.1.models ∧
      ((nodes.foldl (addNodeStep source) acc).1).seen_models = acc.1.seen_models := by
  induction nodes with
  | nil => intro acc; exact ⟨rfl, rfl⟩
  | cons n t ih =>
      intro acc
      have h1 := addNodeStep_preserves source acc n
      have h2 := ih (addNodeStep source acc n)
      rw [List.foldl_cons]
      exact ⟨h2.1.trans h1.1, h2.2.trans h1.2⟩

/-- Characterization of the model loop of `add_manifest`: it appends
the first-seen-deduplicated new entries verbatim and registers their
keys, leaving node data untouched. -/
lemma foldl_addModelStep (source : String) (entries : List ModelEntry) :
    ∀ (st : ModelManifest) (a s : Nat),
      (entries.foldl (addModelStep source) (st, a, s)).1 =
        { st with
          models := st.models ++
            firstSeenDedupGo (st.seen_models.map Prod.fst) entries,
          seen_models := st.seen_models ++
            (firstSeenDedupGo (st.seen_models.map Prod.fst) entries).map
              (fun m => (entryKeyStr m, source)) } := by
  induction entries with
  | nil => intro st a s; simp [firstSeenDedupGo]
  | cons m rest ih =>
      intro st a s
      cases hm : m.url with
      | none => simp [List.foldl_cons, addModelStep, hm, firstSeenDedupGo, ih]
      | some u =>
          by_cases he : u.isEmpty
          · simp [List.foldl_cons, addModelStep, hm, he, firstSeenDedupGo, ih]
          · cases hseen : seenContains st.seen_models (pyLower u) with
            | true =>
                have hc : (st.seen_models.map Prod.fst).contains (pyLower u) = true := by
                  rw [← lookup_isSome_eq_contains]; exact hseen
                simp at hc
                simp [List.foldl_cons, addModelStep, hm, he, hseen,
                      firstSeenDedupGo, hc, ih]
            | false =>
                have hc : (st.seen_models.map Prod.fst).contains (pyLower u) = false := by
                  rw [← lookup_isSome_eq_contains]; exact hseen
                simp at hc
                rw [List.foldl_cons]
                have hstep : addModelStep source (st, a, s) m =
                    ({ st with
                        models := st.models ++ [m],
                        seen_models := st.seen_models ++ [(pyLower u, source)] },
                     a + 1, s) := by
                  simp [addModelStep, hm, he, hseen]
                rw [hstep, ih]
                simp [firstSeenDedupGo, hm, he, hc, entryKeyStr]

/-- Characterization of `add_manifest` on the model plan and the model
seen-map. -/
lemma add_manifest_models_seen (st : ModelManifest) (mf : Manifest) (source : String) :
    ((add_manifest st mf source).1).models =
      st.models ++ firstSeenDedupGo (st.seen_models.map Prod.fst) mf.models ∧
    ((add_manifest st mf source).1).seen_models =
      st.seen_models ++
        (firstSeenDedupGo (st.seen_models.map Prod.fst) mf.models).map
          (fun m => (entryKeyStr m, source)) := by
  have h2 := foldl_addNodeStep_models source mf.custom_nodes
    ((mf.models.foldl (addModelStep source) (st, 0, 0)).1, 0, 0)
  have h1 := foldl_addModelStep source mf.models st 0 0
  unfold add_manifest
  refine ⟨h2.1.trans ?_, h2.2.trans ?_⟩ <;> rw [h1]

/-- Composing first-seen deduplication over concatenated entry lists. -/
lemma firstSeenDedupGo_append (xs ys : List ModelEntry) :
    ∀ K, firstSeenDedupGo K (xs ++ ys) =
      firstSeenDedupGo K xs ++
        firstSeenDedupGo (K ++ (firstSeenDedupGo K xs).map entryKeyStr) ys := by
  induction xs with
  | nil => intro K; simp [firstSeenDedupGo]
  | cons m rest ih =>
      intro K
      cases hm : m.url with
      | none => simp [firstSeenDedupGo, hm, ih]
      | some u =>
          by_cases he : u.isEmpty
          · simp [firstSeenDedupGo, hm, he, ih]
          · by_cases hc : pyLower u ∈ K
            · simp [firstSeenDedupGo, hm, he, hc, ih]
            · simp [firstSeenDedupGo, hm, he, hc, ih, entryKeyStr,
                    List.append_assoc]

/-- Characterization of the fold underlying `load_manifests`. -/
lemma foldl_loadStep (sources : List (String × Option Manifest)) :
    ∀ acc : ModelManifest × Nat × Nat × Nat × Nat,
      ((sources.foldl loadStep acc).1).models =
        acc.1.models ++
          firstSeenDedupGo (acc.1.seen_models.map Prod.fst) (allModels sources) ∧
      ((sources.foldl loadStep acc).1).seen_models.map Prod.fst =
        acc.1.seen_models.map Prod.fst ++
          (firstSeenDedupGo (acc.1.seen_models.map Prod.fst)
            (allModels sources)).map entryKeyStr := by
  induction sources with
  | nil => intro acc; simp [allModels, firstSeenDedupGo]
  | cons src rest ih =>
      intro acc
      have hall : allModels (src :: rest) =
          (match src.2 with | some mf => mf.models | none => []) ++ allModels rest := by
        simp [allModels]
      cases hs : src.2 with
      | none =>
          rw [List.foldl_cons]
          have hstep : loadStep acc src = acc := by simp [loadStep, hs]
          rw [hstep, hall, hs]
          simpa using ih acc
      | some mf =>
          rw [List.foldl_cons, hall, hs]
          have hadd := add_manifest_models_seen acc.1 mf src.1
          have hstep : (loadStep acc src).1 = (add_manifest acc.1 mf src.1).1 := by
            simp [loadStep, hs]
          have hmods2 : (loadStep acc src).1.models =
              acc.1.models ++
                firstSeenDedupGo (acc.1.seen_models.map Prod.fst) mf.models := by
            rw [hstep, hadd.1]
          have hseen2 : (loadStep acc src).1.seen_models.map Prod.fst =
              acc.1.seen_models.map Prod.fst ++
                (firstSeenDedupGo (acc.1.seen_models.map Prod.fst)
                  mf.models).map entryKeyStr := by
            rw [hstep, hadd.2]
            simp [List.map_map, Function.comp_def]
          have hrest := ih (loadStep acc src)
          rw [firstSeenDedupGo_append]
          constructor
          · rw [hrest.1, hmods2, hseen2, List.append_assoc]
          · rw [hrest.2, hseen2, List.map_append, List.append_assoc]

/-- The merged plan built from a fresh loader state is exactly the
spec-side first-seen deduplication of all arriving model entries. -/
lemma load_manifests_plan (sources : List (String × Option Manifest)) :
    ((load_manifests ModelManifest.empty sources).1).models =
      firstSeenDedup (allModels sources) := by
  have h := (foldl_loadStep sources (ModelManifest.empty, 0, 0, 0, 0)).1
  simpa [load_manifests, ModelManifest.empty, firstSeenDedup] using h

/-- Every entry kept by first-seen deduplication is one of the arriving
records, unchanged, and has a truthy `url`. -/
lemma mem_firstSeenDedupGo (entries : List ModelEntry) :
    ∀ K m, m ∈ firstSeenDedupGo K entries →
      m ∈ entries ∧ strTruthy m.url = true := by
  induction entries with
  | nil => intro K m h; simp [firstSeenDedupGo] at h
  | cons e rest ih =>
      intro K m h
      cases hm : e.url with
      | none =>
          rw [firstSeenDedupGo, hm] at h
          exact (ih K m h).imp (fun h1 => List.mem_cons_of_mem e h1) id
      | some u =>
          by_cases he : u.isEmpty
          · rw [firstSeenDedupGo, hm] at h
            simp only [he, if_true] at h
            exact (ih K m h).imp (fun h1 => List.mem_cons_of_mem e h1) id
          · rw [firstSeenDedupGo, hm] at h
            simp only [he] at h
            by_cases hc : K.contains (pyLower u) = true
            · rw [if_neg (by simp [he]), if_pos hc] at h
              exact (ih K m h).imp (fun h1 => List.mem_cons_of_mem e h1) id
            · rw [if_neg (by simp [he]),
                  if_neg (by simpa using hc)] at h
              rcases List.mem_cons.mp h with h1 | h1
              · subst h1
                exact ⟨List.mem_cons_self _ _, by simp [strTruthy, hm, he]⟩
              · exact (ih _ m h1).imp (fun h2 => List.mem_cons_of_mem e h2) id

/-- The predicate under which one runner step counts a model entry as
a success: a truthy `url`, and in a real run a successful
`download_file` call. -/
def modelSucceeds (dry_run : Bool) (fetch : ModelEntry → Bool) (m : ModelEntry) : Bool :=
  strTruthy m.url && (dry_run || fetch m)

def nodeSucceeds (dry_run : Bool) (clone : NodeEntry → Bool) (n : NodeEntry) : Bool :=
  strTruthy n.repo && (dry_run || clone n)

lemma modelRunStep_eq_if (dry_run : Bool) (fetch : ModelEntry → Bool)
    (acc : Nat × Nat) (m : ModelEntry) :
    modelRunStep dry_run fetch acc m =
      if modelSucceeds dry_run fetch m then (acc.1 + 1, acc.2)
      else (acc.1, acc.2 + 1) := by
  cases hm : m.url with
  | none => simp [modelRunStep, modelSucceeds, strTruthy, hm]
  | some u =>
      by_cases he : u.isEmpty
      · simp [modelRunStep, modelSucceeds, strTruthy, hm, he]
      · cases dry_run <;> cases hf : fetch m <;>
          simp [modelRunStep, modelSucceeds, strTruthy, hm, he, hf]

lemma nodeRunStep_eq_if (dry_run : Bool) (clone : NodeEntry → Bool)
    (acc : Nat × Nat) (n : NodeEntry) :
    nodeRunStep dry_run clone acc n =
      if nodeSucceeds dry_run clone n then (acc.1 + 1, acc.2)
      else (acc.1, acc.2 + 1) := by
  cases hn : n.repo with
  | none => simp [nodeRunStep, nodeSucceeds, strTruthy, hn]
  | some r =>
      by_cases he : r.isEmpty
      · simp [nodeRunStep, nodeSucceeds, strTruthy, hn, he]
      · cases dry_run <;> cases hc : clone n <;>
          simp [nodeRunStep, nodeSucceeds, strTruthy, hn, he, hc]

lemma foldl_ifCount (p : α → Bool) (l : List α) :
    ∀ a b : Nat,
      l.foldl (fun acc m => if p m then (acc.1 + 1, acc.2) else (acc.1, acc.2 + 1)) (a, b)
        = (a + l.countP p, b + l.countP (fun m => !p m)) := by
  induction l with
  | nil => intro a b; simp
  | cons x xs ih =>
      intro a b
      by_cases h : p x = true <;>
        simp [List.countP_cons, h, ih] <;> omega

/-- The runner's counters are success/failure counts over the filtered
plan. -/
lemma download_models_counts (manifest : Manifest) (tf : Option (List String))
    (dry_run : Bool) (fetch : ModelEntry → Bool) :
    download_models manifest tf dry_run fetch =
      ((filteredModels manifest.models tf).countP (modelSucceeds dry_run fetch),
       (filteredModels manifest.models tf).countP
         (fun m => !modelSucceeds dry_run fetch m)) := by
  unfold download_models
  have hfun : modelRunStep dry_run fetch =
      fun acc m => if modelSucceeds dry_run fetch m then (acc.1 + 1, acc.2)
        else (acc.1, acc.2 + 1) := by
    funext acc m; exact modelRunStep_eq_if dry_run fetch acc m
  rw [hfun]
  simpa using foldl_ifCount (modelSucceeds dry_run fetch)
    (filteredModels manifest.models tf) 0 0

lemma install_custom_nodes_counts (manifest : Manifest) (dry_run : Bool)
    (clone : NodeEntry → Bool) :
    install_custom_nodes manifest dry_run clone =
      (manifest.custom_nodes.countP (nodeSucceeds dry_run clone),
       manifest.custom_nodes.countP (fun n => !nodeSucceeds dry_run clone n)) := by
  unfold install_custom_nodes
  have hfun : nodeRunStep dry_run clone =
      fun acc n => if nodeSucceeds dry_run clone n then (acc.1 + 1, acc.2)
        else (acc.1, acc.2 + 1) := by
    funext acc n; exact nodeRunStep_eq_if dry_run clone acc n
  rw [hfun]
  simpa using foldl_ifCount (nodeSucceeds dry_run clone) manifest.custom_nodes 0 0

/-! ### Concrete scenario inputs -/

/-- Scenario A, first manifest: a model whose URL has uppercase parts. -/
def scenAModel1 : ModelEntry :=
  ⟨some "Model A", some "http://EXAMPLE.com/Weights.bin", some "checkpoint",
   none, none, none⟩

/-- Scenario A, second manifest: the same URL, lowercased. -/
def scenAModel2 : ModelEntry :=
  ⟨some "Model A again", some "http://example.com/weights.bin", some "checkpoint",
   none, none, none⟩

def scenAManifest1 : Manifest := ⟨[scenAModel1], []⟩

def scenAManifest2 : Manifest := ⟨[scenAModel2], []⟩

/-- Scenario E: a model entry with no `url`. -/
def scenEModel : ModelEntry :=
  ⟨some "No URL", none, some "checkpoint", none, none, none⟩

def scenDCkpt1 : ModelEntry :=
  ⟨some "Ckpt One", some "http://h/c1.bin", some "checkpoint", none, none, none⟩

def scenDLora : ModelEntry :=
  ⟨some "Lora One", some "http://h/l1.bin", some "lora", none, none, none⟩

def scenDCkpt2 : ModelEntry :=
  ⟨some "Ckpt Two", some "http://h/c2.bin", some "checkpoint", none, none, none⟩

/-- Scenario D: a plan holding both `checkpoint` and `lora` entries. -/
def scenDPlan : List ModelEntry := [scenDCkpt1, scenDLora, scenDCkpt2]

/-! ### Claims -/

/-- C1: Merging manifests is a stable single-pass fold with
case-insensitive first-seen-wins deduplication: an entry whose
lowercased uniqueness key (url for models, repo for nodes) was already
seen is discarded, the duplicate counter incremented and the plan and
seen-maps unchanged; an entry with an unseen key is appended to the
plan in arrival order and its key registered to the current source.
In particular, two manifests each declaring a model with the same URL
differing only in case yield a merged plan with exactly one model
entry and a total duplicate count of 1. -/
theorem merge_first_seen_wins :
    (∀ (source : String) (st : ModelManifest) (a s : Nat) (m : ModelEntry)
       (u : String), m.url = some u → u.isEmpty = false →
       (seenContains st.seen_models (pyLower u) = true →
          addModelStep source (st, a, s) m = (st, a, s + 1)) ∧
       (seenContains st.seen_models (pyLower u) = false →
          addModelStep source (st, a, s) m =
            ({ st with
                models := st.models ++ [m],
                seen_models := st.seen_models ++ [(pyLower u, source)] },
             a + 1, s))) ∧
    (∀ (source : String) (st : ModelManifest) (a s : Nat) (n : NodeEntry)
       (r : String), n.repo = some r → r.isEmpty = false →
       (seenContains st.seen_nodes (pyLower r) = true →
          addNodeStep source (st, a, s) n = (st, a, s + 1)) ∧
       (seenContains st.seen_nodes (pyLower r) = false →
          addNodeStep source (st, a, s) n =
            ({ st with
                custom_nodes := st.custom_nodes ++ [n],
                seen_nodes := st.seen_nodes ++ [(pyLower r, source)] },
             a + 1, s))) ∧
    (((load_manifests ModelManifest.empty
        [("m1", some scenAManifest1), ("m2", some scenAManifest2)]).1).models.length = 1 ∧
     (load_manifests ModelManifest.empty
        [("m1", some scenAManifest1), ("m2", some scenAManifest2)]).2.2.1 = 1) := by
  refine ⟨?_, ?_, by decide, by decide⟩
  · intro source st a s m u hm he
    constructor <;> intro hseen <;> simp [addModelStep, hm, he, hseen]
  · intro source st a s n r hn he
    constructor <;> intro hseen <;> simp [addNodeStep, hn, he, hseen]

/-- Witness for C1: the duplicate branch and the append branch of the
model step at concrete inputs. -/
theorem merge_first_seen_wins_witness :
    addModelStep "m2" (⟨[scenAModel1], [], [("http://example.com/weights.bin", "m1")], []⟩, 0, 0)
        scenAModel2 =
      (⟨[scenAModel1], [], [("http://example.com/weights.bin", "m1")], []⟩, 0, 1) ∧
    addModelStep "m1" (ModelManifest.empty, 0, 0) scenAModel1 =
      ({ ModelManifest.empty with
          models := [scenAModel1],
          seen_models := [("http://example.com/weights.bin", "m1")] },
       1, 0) := by
  constructor
  · exact (merge_first_seen_wins.1 "m2"
      ⟨[scenAModel1], [], [("http://example.com/weights.bin", "m1")], []⟩ 0 0
      scenAModel2 "http://example.com/weights.bin" rfl rfl).1 (by decide)
  · have h := (merge_first_seen_wins.1 "m1" ModelManifest.empty 0 0
      scenAModel1 "http://EXAMPLE.com/Weights.bin" rfl rfl).2 (by decide)
    rw [h]
    decide

/-- C7: during merge, an entry missing its uniqueness key (no `url` for
a model, no `repo` for a node — `None` or empty, i.e. falsy) is
silently dropped: the whole accumulator, hence the plan length, the
added counter and the duplicate counter, is unchanged. -/
theorem merge_missing_key_dropped :
    (∀ (source : String) (st : ModelManifest) (a s : Nat) (m : ModelEntry),
       strTruthy m.url = false → addModelStep source (st, a, s) m = (st, a, s)) ∧
    (∀ (source : String) (st : ModelManifest) (a s : Nat) (n : NodeEntry),
       strTruthy n.repo = false → addNodeStep source (st, a, s) n = (st, a, s)) :=
  ⟨fun source st a s m h => addModelStep_falsy source (st, a, s) m h,
   fun source st a s n h => addNodeStep_falsy source (st, a, s) n h⟩

/-- Witness for C7: a url-less model entry leaves the empty state and
both counters untouched. -/
theorem merge_missing_key_dropped_witness :
    addModelStep "s1" (ModelManifest.empty, 0, 0) scenEModel =
      (ModelManifest.empty, 0, 0) :=
  merge_missing_key_dropped.1 "s1" ModelManifest.empty 0 0 scenEModel (by decide)

/-- C6: digest verification is a deterministic pure function streaming
the file in 4096-byte chunks and comparing the lowercase hex SHA-256
digest to the expected value with exact (case-sensitive) string
equality: `verify_hash file (sha256hex file)` is always true, and
changing any one hex character of the expected digest makes it false. -/
theorem verify_hash_pure_digest :
    (∀ file : List Nat, verify_hash file (sha256hex file) = true) ∧
    (∀ (file : List Nat) (i : Nat) (c : Char),
       i < (sha256hex file).data.length →
       c ≠ (sha256hex file).data.getD i 'x' →
       verify_hash file (String.mk ((sha256hex file).data.set i c)) = false) := by
  constructor
  · intro file
    rw [verify_hash_fed]
    exact beq_self_eq_true _
  · intro file i c hi hc
    rw [verify_hash_fed]
    apply beq_eq_false_iff_ne.mpr
    intro hEq
    have hd : (sha256hex file).data = (sha256hex file).data.set i c := by
      have h2 := congrArg String.data hEq
      simpa using h2
    have h3 := getD_set_self (sha256hex file).data i c hi
    rw [← hd] at h3
    exact hc h3.symm

/-- Witness for C6: flipping the first hex character of the digest of
the empty file defeats verification. -/
theorem verify_hash_pure_digest_witness :
    verify_hash [] (String.mk (((sha256hex ([] : List Nat)).data).set 0 'f')) = false :=
  verify_hash_pure_digest.2 [] 0 'f' (by decide) (by decide)

/-- When a transport exists, the fetch phase always invokes it. -/
lemma fetchPhase_transportUsed (expected : Option String) (t : TransportResult) :
    (fetchPhase expected true t).transportUsed = true := by
  cases t with
  | err leftover => rfl
  | ok bytes =>
      by_cases he : strTruthy expected
      · by_cases hv : verify_hash bytes (expected.getD "") <;>
          simp [fetchPhase, he, hv]
      · simp [fetchPhase, he]

/-- A failed fetch phase leaves no destination file. -/
lemma fetchPhase_failed_dest (expected : Option String) (hasMethod : Bool)
    (t : TransportResult) :
    (fetchPhase expected hasMethod t).outcome = Outcome.failed →
    (fetchPhase expected hasMethod t).dest = none := by
  cases hasMethod with
  | false => intro h; rfl
  | true =>
      cases t with
      | err leftover => intro h; rfl
      | ok bytes =>
          by_cases he : strTruthy expected
          · by_cases hv : verify_hash bytes (expected.getD "") <;>
              simp [fetchPhase, he, hv]
          · simp [fetchPhase, he]

/-- C2: when the destination file already exists, `download_file`
skips (result Skipped-Already-Present, destination untouched, no
transport invoked) if a supplied digest matches or if no digest was
supplied; on a digest mismatch the stale file is deleted and a fresh
fetch is attempted (the call reduces to the fetch phase on a
nonexistent destination, and a transport is invoked). -/
theorem download_file_existing_dest (content : List Nat)
    (expected : Option String) (hasMethod : Bool) (t : TransportResult) :
    (strTruthy expected = true → verify_hash content (expected.getD "") = true →
       download_file (some content) expected hasMethod t =
         ⟨Outcome.skippedPresent, some content, false⟩) ∧
    (strTruthy expected = true → verify_hash content (expected.getD "") = false →
       download_file (some content) expected hasMethod t =
         fetchPhase expected hasMethod t ∧
       (hasMethod = true →
         (download_file (some content) expected hasMethod t).transportUsed = true)) ∧
    (strTruthy expected = false →
       download_file (some content) expected hasMethod t =
         ⟨Outcome.skippedPresent, some content, false⟩) := by
  refine ⟨fun ht hv => ?_, fun ht hv => ⟨?_, fun hm => ?_⟩, fun ht => ?_⟩
  · simp [download_file, ht, hv]
  · simp [download_file, ht, hv]
  · subst hm
    simp [download_file, ht, hv, fetchPhase_transportUsed]
  · simp [download_file, ht]

/-- Witness for C2: the three branches at concrete inputs — matching
digest, mismatching digest, and no digest. -/
theorem download_file_existing_dest_witness :
    download_file (some []) (some (sha256hex [])) true (TransportResult.err none) =
      ⟨Outcome.skippedPresent, some [], false⟩ ∧
    (download_file (some [1]) (some "00") true (TransportResult.ok [2]) =
       fetchPhase (some "00") true (TransportResult.ok [2]) ∧
     (download_file (some [1]) (some "00") true
        (TransportResult.ok [2])).transportUsed = true) ∧
    download_file (some [3]) none false (TransportResult.err none) =
      ⟨Outcome.skippedPresent, some [3], false⟩ := by
  refine ⟨?_, ?_, ?_⟩
  · exact (download_file_existing_dest [] (some (sha256hex [])) true
      (TransportResult.err none)).1 (by decide) (by decide)
  · have h := (download_file_existing_dest [1] (some "00") true
      (TransportResult.ok [2])).2.1 (by decide) (by decide)
    exact ⟨h.1, h.2 rfl⟩
  · exact (download_file_existing_dest [3] none false
      (TransportResult.err none)).2.2 (by decide)

/-- C5: on transport failure any half-written destination file is
deleted and the outcome is Failed; on a post-download digest mismatch
the file is deleted and the outcome is Failed; and whenever
`download_file` fails, no destination file remains. -/
theorem download_file_failure_cleanup :
    (∀ (expected : Option String) (leftover : Option (List Nat)),
       fetchPhase expected true (TransportResult.err leftover) =
         ⟨Outcome.failed, none, true⟩) ∧
    (∀ (expected : Option String) (bytes : List Nat),
       strTruthy expected = true →
       verify_hash bytes (expected.getD "") = false →
       fetchPhase expected true (TransportResult.ok bytes) =
         ⟨Outcome.failed, none, true⟩) ∧
    (∀ (dest0 : Option (List Nat)) (expected : Option String)
       (hasMethod : Bool) (t : TransportResult),
       (download_file dest0 expected hasMethod t).outcome = Outcome.failed →
       (download_file dest0 expected hasMethod t).dest = none) := by
  refine ⟨fun expected leftover => rfl, fun expected bytes ht hv => ?_, ?_⟩
  · simp [fetchPhase, ht, hv]
  · intro dest0 expected hasMethod t
    cases dest0 with
    | none => exact fetchPhase_failed_dest expected hasMethod t
    | some content =>
        by_cases ht : strTruthy expected
        · by_cases hv : verify_hash content (expected.getD "")
          · simp [download_file, ht, hv]
          · simpa [download_file, ht, hv] using
              fetchPhase_failed_dest expected hasMethod t
        · simp [download_file, ht]

/-- Witness for C5: a failed transport with a leftover file, a digest
mismatch after a successful transport, and the no-residue property at
a concretely failing call. -/
theorem download_file_failure_cleanup_witness :
    fetchPhase (some "ff") true (TransportResult.err (some [9])) =
      ⟨Outcome.failed, none, true⟩ ∧
    fetchPhase (some "00") true (TransportResult.ok [5]) =
      ⟨Outcome.failed, none, true⟩ ∧
    (download_file none none true (TransportResult.err (some [7]))).dest = none := by
  refine ⟨?_, ?_, ?_⟩
  · exact download_file_failure_cleanup.1 (some "ff") (some [9])
  · exact download_file_failure_cleanup.2.1 (some "00") [5] (by decide) (by decide)
  · exact download_file_failure_cleanup.2.2 none none true
      (TransportResult.err (some [7])) (by decide)

/-- The filtered list is always a sublist of the stored plan. -/
lemma filteredModels_sublist (models : List ModelEntry) (tf : Option (List String)) :
    List.Sublist (filteredModels models tf) models := by
  cases tf with
  | none => exact List.Sublist.refl models
  | some l =>
      by_cases he : l.isEmpty
      · simp [filteredModels, he]
      · simp only [filteredModels, he, Bool.false_eq_true, if_false]
        exact List.filter_sublist models

/-- C4: a dry run of the plan runner counts as Succeeded exactly the
filtered entries with a resolvable source and as Failed exactly those
without one; it is independent of the transfer oracle (no transport
I/O); a real run whose Transfer Executor always succeeds produces the
same counts (identical filtering and missing-source detection, only
the executor call elided); the node phase behaves the same on `repo`;
and in a real run the oracle is consulted only for entries with a
resolvable source, so a source-less entry is counted Failed with no
filesystem or network interaction in either mode. -/
theorem dry_run_refines_real_run (manifest : Manifest)
    (tf : Option (List String)) (fetch : ModelEntry → Bool)
    (clone : NodeEntry → Bool) :
    download_models manifest tf true fetch =
      ((filteredModels manifest.models tf).countP (fun m => strTruthy m.url),
       (filteredModels manifest.models tf).countP (fun m => !strTruthy m.url)) ∧
    (∀ fetch2 : ModelEntry → Bool,
       download_models manifest tf true fetch =
         download_models manifest tf true fetch2) ∧
    download_models manifest tf false (fun _ => true) =
      download_models manifest tf true fetch ∧
    install_custom_nodes manifest true clone =
      (manifest.custom_nodes.countP (fun n => strTruthy n.repo),
       manifest.custom_nodes.countP (fun n => !strTruthy n.repo)) ∧
    (∀ (dry_run : Bool) (fetch2 : ModelEntry → Bool),
       (∀ m ∈ manifest.models, strTruthy m.url = true → fetch m = fetch2 m) →
       download_models manifest tf dry_run fetch =
         download_models manifest tf dry_run fetch2) := by
  have hdry : ∀ g : ModelEntry → Bool,
      download_models manifest tf true g =
        ((filteredModels manifest.models tf).countP (fun m => strTruthy m.url),
         (filteredModels manifest.models tf).countP (fun m => !strTruthy m.url)) := by
    intro g
    rw [download_models_counts]
    have hfun : modelSucceeds true g = fun m => strTruthy m.url := by
      funext m; simp [modelSucceeds]
    simp only [hfun]
  refine ⟨hdry fetch, fun fetch2 => (hdry fetch).trans (hdry fetch2).symm, ?_, ?_, ?_⟩
  · rw [hdry fetch, download_models_counts]
    have hfun : modelSucceeds false (fun _ => true) = fun m => strTruthy m.url := by
      funext m; simp [modelSucceeds]
    simp only [hfun]
  · rw [install_custom_nodes_counts]
    have hfun : nodeSucceeds true clone = fun n => strTruthy n.repo := by
      funext n; simp [nodeSucceeds]
    simp only [hfun]
  · intro dry_run fetch2 hagree
    rw [download_models_counts, download_models_counts]
    have hmem : ∀ m ∈ filteredModels manifest.models tf, m ∈ manifest.models :=
      fun m hm => (filteredModels_sublist manifest.models tf).subset hm
    have h1 : (filteredModels manifest.models tf).countP
        (modelSucceeds dry_run fetch) =
        (filteredModels manifest.models tf).countP (modelSucceeds dry_run fetch2) := by
      refine List.countP_congr fun m hm => ?_
      by_cases ht : strTruthy m.url = true
      · rw [modelSucceeds, modelSucceeds, hagree m (hmem m hm) ht]
      · simp only [Bool.not_eq_true] at ht
        simp [modelSucceeds, ht]
    have h2 : (filteredModels manifest.models tf).countP
        (fun m => !modelSucceeds dry_run fetch m) =
        (filteredModels manifest.models tf).countP
          (fun m => !modelSucceeds dry_run fetch2 m) := by
      refine List.countP_congr fun m hm => ?_
      by_cases ht : strTruthy m.url = true
      · rw [modelSucceeds, modelSucceeds, hagree m (hmem m hm) ht]
      · simp only [Bool.not_eq_true] at ht
        simp [modelSucceeds, ht]
    rw [h1, h2]

/-- Witness for C4: a plan whose only model entry has no `url` gives
identical real-run results under two transfer oracles that disagree
everywhere a url exists — the oracle is never consulted. -/
theorem dry_run_refines_real_run_witness :
    download_models ⟨[scenEModel], []⟩ none false (fun _ => true) =
      download_models ⟨[scenEModel], []⟩ none false (fun _ => false) :=
  (dry_run_refines_real_run ⟨[scenEModel], []⟩ none (fun _ => true)
    (fun _ => true)).2.2.2.2 false (fun _ => false) (by decide)

/-- C8: with a non-empty type filter the plan runner processes exactly
the entries whose `type` is a member of the filter; the filtering is
applied before any counting or iteration (the counting loop runs over
the pre-filtered list); the filtered list is a sublist of the stored
plan, which is itself left unmodified; and filtering on `lora` reduces
a plan with both `checkpoint` and `lora` entries to only the `lora`
entries. -/
theorem plan_filter_frame (models : List ModelEntry) (nodes : List NodeEntry)
    (tf : List String) (dry_run : Bool) (fetch : ModelEntry → Bool)
    (h : tf.isEmpty = false) :
    filteredModels models (some tf) = models.filter (fun m => typeMem m tf) ∧
    List.Sublist (filteredModels models (some tf)) models ∧
    download_models ⟨models, nodes⟩ (some tf) dry_run fetch =
      (models.filter (fun m => typeMem m tf)).foldl
        (modelRunStep dry_run fetch) (0, 0) ∧
    filteredModels scenDPlan (some ["lora"]) = [scenDLora] := by
  have hfilter : filteredModels models (some tf) =
      models.filter (fun m => typeMem m tf) := by
    simp [filteredModels, h]
  refine ⟨hfilter, filteredModels_sublist models (some tf), ?_, by decide⟩
  rw [download_models]
  rw [hfilter]

/-- Witness for C8: scenario D concretely. -/
theorem plan_filter_frame_witness :
    filteredModels scenDPlan (some ["lora"]) = [scenDLora] :=
  (plan_filter_frame scenDPlan [] ["lora"] true (fun _ => true)
    (by decide)).2.2.2

/-- C9: the merged plan stores each first-seen entry record verbatim:
the plan built from a fresh loader equals the spec-side first-seen
deduplication of the arriving records, which keeps whole records
unchanged and lowercases only the comparison key; every plan entry is
one of the arriving records (all fields, including the original casing
of `url`, intact); and the later filtering/acquisition pass runs on
exactly these stored records. -/
theorem merged_plan_verbatim (sources : List (String × Option Manifest)) :
    ((load_manifests ModelManifest.empty sources).1).models =
      firstSeenDedup (allModels sources) ∧
    (∀ m, m ∈ ((load_manifests ModelManifest.empty sources).1).models →
       m ∈ allModels sources ∧ strTruthy m.url = true) ∧
    (∀ (tf : Option (List String)) (dry_run : Bool) (fetch : ModelEntry → Bool),
       download_models
           (get_combined_manifest (load_manifests ModelManifest.empty sources).1)
           tf dry_run fetch =
         download_models
           ⟨firstSeenDedup (allModels sources),
            ((load_manifests ModelManifest.empty sources).1).custom_nodes⟩
           tf dry_run fetch) := by
  have hplan := load_manifests_plan sources
  refine ⟨hplan, ?_, ?_⟩
  · intro m hm
    rw [hplan] at hm
    exact mem_firstSeenDedupGo (allModels sources) [] m hm
  · intro tf dry_run fetch
    rw [get_combined_manifest, hplan]

/-- Witness for C9: the single kept record of a one-source merge is an
arriving record with truthy url. -/
theorem merged_plan_verbatim_witness :
    scenAModel1 ∈ allModels [("s1", some scenAManifest1)] ∧
    strTruthy scenAModel1.url = true :=
  (merged_plan_verbatim [("s1", some scenAManifest1)]).2.1 scenAModel1 (by decide)

/-- C3 counterexample: a run over one manifest whose only model entry
lacks `url` produces an empty merged plan and a final failure count of
0, not 1 — the entry is dropped at merge time and never reaches the
runner's missing-url branch, so it does not contribute to the failure
count. -/
theorem missing_url_entry_counterexample :
    ((load_manifests ModelManifest.empty [("s1", some ⟨[scenEModel], []⟩)]).1).models = [] ∧
    mainTotals [("s1", some ⟨[scenEModel], []⟩)] none false false false
      (fun _ => true) (fun _ => true) = (0, 0) ∧
    (mainTotals [("s1", some ⟨[scenEModel], []⟩)] none false false false
      (fun _ => true) (fun _ => true)).2 ≠ 1 := by
  refine ⟨by decide, by decide, by decide⟩

/-- C3 (amended): a model entry lacking `url` is inert — it is never
placed in the merged plan (inserting it anywhere in a manifest changes
neither the loader's result nor the plan, and it is not a member of
the plan) and it contributes nothing (0, not 1) to the run's final
success and failure counts. -/
theorem missing_url_entry_inert (A B : List (String × Option Manifest))
    (name : String) (p q : List ModelEntry) (nodes : List NodeEntry)
    (m : ModelEntry) (hm : strTruthy m.url = false)
    (tf : Option (List String)) (models_only nodes_only dry_run : Bool)
    (fetch : ModelEntry → Bool) (clone : NodeEntry → Bool) :
    load_manifests ModelManifest.empty
        (A ++ (name, some ⟨p ++ m :: q, nodes⟩) :: B) =
      load_manifests ModelManifest.empty (A ++ (name, some ⟨p ++ q, nodes⟩) :: B) ∧
    m ∉ ((load_manifests ModelManifest.empty
        (A ++ (name, some ⟨p ++ m :: q, nodes⟩) :: B)).1).models ∧
    mainTotals (A ++ (name, some ⟨p ++ m :: q, nodes⟩) :: B)
        tf models_only nodes_only dry_run fetch clone =
      mainTotals (A ++ (name, some ⟨p ++ q, nodes⟩) :: B)
        tf models_only nodes_only dry_run fetch clone := by
  have hadd : ∀ st : ModelManifest,
      add_manifest st ⟨p ++ m :: q, nodes⟩ name =
        add_manifest st ⟨p ++ q, nodes⟩ name := by
    intro st
    unfold add_manifest
    have hfold : (p ++ m :: q).foldl (addModelStep name) (st, 0, 0) =
        (p ++ q).foldl (addModelStep name) (st, 0, 0) := by
      rw [List.foldl_append, List.foldl_append, List.foldl_cons,
          addModelStep_falsy name _ m hm]
    rw [hfold]
  have hload : load_manifests ModelManifest.empty
      (A ++ (name, some ⟨p ++ m :: q, nodes⟩) :: B) =
      load_manifests ModelManifest.empty (A ++ (name, some ⟨p ++ q, nodes⟩) :: B) := by
    unfold load_manifests
    rw [List.foldl_append, List.foldl_append, List.foldl_cons, List.foldl_cons]
    have hstep : ∀ acc : ModelManifest × Nat × Nat × Nat × Nat,
        loadStep acc (name, some (⟨p ++ m :: q, nodes⟩ : Manifest)) =
          loadStep acc (name, some (⟨p ++ q, nodes⟩ : Manifest)) := by
      intro acc
      simp [loadStep, hadd]
    rw [hstep]
  refine ⟨hload, ?_, ?_⟩
  · intro hmem
    rw [load_manifests_plan] at hmem
    have := (mem_firstSeenDedupGo _ [] m hmem).2
    rw [hm] at this
    exact Bool.false_ne_true this
  · unfold mainTotals
    rw [hload]

/-- Witness for C3's amended theorem: concretely inserting a url-less
entry into a singleton manifest changes nothing. -/
theorem missing_url_entry_inert_witness :
    load_manifests ModelManifest.empty
        [("s1", some ⟨[scenEModel, scenAModel1], []⟩)] =
      load_manifests ModelManifest.empty [("s1", some ⟨[scenAModel1], []⟩)] ∧
    scenEModel ∉ ((load_manifests ModelManifest.empty
        [("s1", some ⟨[scenEModel, scenAModel1], []⟩)]).1).models ∧
    mainTotals [("s1", some ⟨[scenEModel, scenAModel1], []⟩)] none false false true
        (fun _ => true) (fun _ => true) =
      mainTotals [("s1", some ⟨[scenAModel1], []⟩)] none false false true
        (fun _ => true) (fun _ => true) :=
  missing_url_entry_inert [] [] "s1" [] [scenAModel1] [] scenEModel (by decide)
    none false false true (fun _ => true) (fun _ => true)

/-- C10: a manifest source that fails to load contributes nothing —
removing it from the source list changes neither the loader state nor
the printed totals, and the loop continues with the remaining sources;
consequently a run in which every source fails to load has an empty
combined manifest, total success and failure counts of zero, and exit
code 0 (given the CLI flag combination is not the fatal
`--models-only --nodes-only` conflict). -/
theorem failed_sources_contribute_nothing :
    (∀ (st : ModelManifest) (A B : List (String × Option Manifest)) (name : String),
       load_manifests st (A ++ (name, (none : Option Manifest)) :: B) =
         load_manifests st (A ++ B)) ∧
    (∀ (sources : List (String × Option Manifest)) (tf : Option (List String))
       (models_only nodes_only list_mode dry_run : Bool)
       (fetch : ModelEntry → Bool) (clone : NodeEntry → Bool),
       (∀ src ∈ sources, src.2 = (none : Option Manifest)) →
       get_combined_manifest (load_manifests ModelManifest.empty sources).1 =
         ⟨[], []⟩ ∧
       mainTotals sources tf models_only nodes_only dry_run fetch clone = (0, 0) ∧
       ((models_only && nodes_only) = false →
         mainExitCode sources tf models_only nodes_only list_mode dry_run
           fetch clone = 0)) := by
  have hallnone : ∀ (sources : List (String × Option Manifest))
      (acc : ModelManifest × Nat × Nat × Nat × Nat),
      (∀ src ∈ sources, src.2 = (none : Option Manifest)) →
      sources.foldl loadStep acc = acc := by
    intro sources
    induction sources with
    | nil => intro acc h; rfl
    | cons s rest ih =>
        intro acc h
        have hs := h s (List.mem_cons_self s rest)
        rw [List.foldl_cons]
        have hstep : loadStep acc s = acc := by simp [loadStep, hs]
        rw [hstep]
        exact ih acc fun x hx => h x (List.mem_cons_of_mem s hx)
  have hempty_dl : ∀ (tf : Option (List String)) (dry_run : Bool)
      (fetch : ModelEntry → Bool),
      download_models ⟨[], []⟩ tf dry_run fetch = (0, 0) := by
    intro tf dry_run fetch
    cases tf with
    | none => rfl
    | some l =>
        by_cases he : l.isEmpty <;> simp [download_models, filteredModels, he]
  constructor
  · intro st A B name
    unfold load_manifests
    rw [List.foldl_append, List.foldl_append, List.foldl_cons]
    have hstep : ∀ acc : ModelManifest × Nat × Nat × Nat × Nat,
        loadStep acc (name, (none : Option Manifest)) = acc := fun acc => rfl
    rw [hstep]
  · intro sources tf models_only nodes_only list_mode dry_run fetch clone hall
    have hst : load_manifests ModelManifest.empty sources =
        (ModelManifest.empty, 0, 0, 0, 0) :=
      hallnone sources (ModelManifest.empty, 0, 0, 0, 0) hall
    have hcomb : get_combined_manifest (load_manifests ModelManifest.empty sources).1 =
        ⟨[], []⟩ := by
      rw [hst]; rfl
    have htot : mainTotals sources tf models_only nodes_only dry_run fetch clone =
        (0, 0) := by
      unfold mainTotals
      rw [hst]
      cases models_only <;> cases nodes_only <;>
        simp [hempty_dl, install_custom_nodes, ModelManifest.empty,
              get_combined_manifest]
    refine ⟨hcomb, htot, fun hconf => ?_⟩
    unfold mainExitCode
    rw [hconf, htot]
    cases list_mode <;> simp

/-- Witness for C10: the load loop at concrete inputs, and a run whose
single source fails to load. -/
theorem failed_sources_contribute_nothing_witness :
    load_manifests ModelManifest.empty
        ([("good", some scenAManifest1)] ++ [("bad", (none : Option Manifest))] ++ []) =
      load_manifests ModelManifest.empty ([("good", some scenAManifest1)] ++ []) ∧
    mainTotals [("bad", (none : Option Manifest))] none false false false
        (fun _ => true) (fun _ => true) = (0, 0) ∧
    mainExitCode [("bad", (none : Option Manifest))] none false false false false
        (fun _ => true) (fun _ => true) = 0 := by
  have h2 := failed_sources_contribute_nothing.2
    [("bad", (none : Option Manifest))] none false false false false
    (fun _ => true) (fun _ => true) (by decide)
  exact ⟨failed_sources_contribute_nothing.1 ModelManifest.empty
    [("good", some scenAManifest1)] [] "bad", h2.2.1, h2.2.2 rfl⟩

end ComfyDL
